import Mathlib

/-!
Verification of the `net.ipv4.dhcp` NCD module (src/ncd/modules/net_ipv4_dhcp.c)
against its natural-language specification.

The module's C code is embedded shallowly below:
  * NCD values (strings / lists / maps) become the inductive `NCDVal`;
  * the option-reading loop of `func_new` becomes the index-driven recursion
    `parseLoop`, kept faithful to the C loop including its dead
    `j == count` check and the out-of-bounds `NCDVal_ListGet(opts_arg, j+1)`
    that occurs when `hostname`/`vendorclassid` is the last list entry;
  * the event callback `dhcp_handler`, the teardown helper `instance_free`
    and `func_die` become functions producing explicit traces of host-facing
    actions;
  * the variable lookup `func_getvar` becomes a pure function of a lease
    snapshot, producing the looked-up value together with a trace of engine
    queries and error logs, and returning the (unmodified) instance state.
Helpers of the repository that are outside the provided source file
(the address printing and mask validation of misc/ipaddr.h) are modelled
from the specification's words and marked as such in their doc comments.
-/

namespace NetIpv4Dhcp

/-- NCD dynamic values: strings (which may contain nul bytes), lists, and
maps, mirroring the value kinds of the host's NCDVal machinery as far as
this module observes them. -/
inductive NCDVal where
  | str (s : String)
  | list (elems : List NCDVal)
  | map (pairs : List (NCDVal × NCDVal))

/-- True when the string contains no nul byte. -/
def strNoNulls (s : String) : Bool := !(s.toList.contains (Char.ofNat 0))

/-- Embedding of `NCDVal_IsStringNoNulls`: the value is a string with no
embedded nul bytes. -/
def NCDVal_IsStringNoNulls : NCDVal → Bool
  | .str s => strNoNulls s
  | _ => false

/-- Embedding of `NCDVal_IsList`. -/
def NCDVal_IsList : NCDVal → Bool
  | .list _ => true
  | _ => false

/-- Embedding of `NCDVal_StringValue` (in the C code only applied to values
that passed the string check). -/
def NCDVal_StringValue : NCDVal → String
  | .str s => s
  | _ => ""

/-- Embedding of `struct BDHCPClient_opts` as filled in by `func_new`:
`hostname` and `vendorclassid` are NULL pointers until set (modelled with
`Option`), `auto_clientid` is a 0/1 flag. `{}` is the zero-initialised
record of the C declaration `struct BDHCPClient_opts opts = {};`. -/
structure BDHCPClient_opts where
  hostname : Option String := none
  vendorclassid : Option String := none
  auto_clientid : Bool := false
deriving DecidableEq

/-- Outcome of the option-reading loop of `func_new` (lines 124-162 of the
C file). `err msg` is the `goto fail0` path taken after
`ModuleLog(..., BLOG_ERROR, msg)`; `oobGet` marks the call
`NCDVal_ListGet(opts_arg, j + 1)` with `j + 1 = count`, an access past the
end of the option list whose behaviour belongs to the host's value
machinery (outside this module's source) and is in any case none of the
module's own error paths. -/
inductive ParseResult where
  | ok (opts : BDHCPClient_opts)
  | err (msg : String)
  | oobGet
deriving DecidableEq

/-- Embedding of the option-reading `for` loop of `func_new`. `l` is the
option list and `j` the loop index. Kept faithful to the C code: the
`j == count` check guarding the "option value missing" error sits inside
the loop body (which only runs when `j < count`), and fetching the value at
index `j + 1` is an out-of-bounds access exactly when `j + 1 = count`. -/
def parseLoop (l : List NCDVal) (acc : BDHCPClient_opts) (j : Nat) : ParseResult :=
  if h : j < l.length then
    if NCDVal_IsStringNoNulls l[j] then
      if NCDVal_StringValue l[j] == "hostname" || NCDVal_StringValue l[j] == "vendorclassid" then
        if j == l.length then
          .err ("option value missing")
        else if h2 : j + 1 < l.length then
          if NCDVal_IsStringNoNulls l[j + 1] then
            parseLoop l
              (if NCDVal_StringValue l[j] == "hostname" then
                { acc with hostname := some (NCDVal_StringValue l[j + 1]) }
              else
                { acc with vendorclassid := some (NCDVal_StringValue l[j + 1]) })
              (j + 2)
          else .err ("wrong option value type")
        else .oobGet
      else if NCDVal_StringValue l[j] == "auto_clientid" then
        parseLoop l { acc with auto_clientid := true } (j + 1)
      else .err ("unknown option name")
    else .err ("wrong option name type")
  else .ok acc
termination_by l.length - j
decreasing_by all_goals omega

/-- Outcome of `func_new`: either control reaches `BDHCPClient_Init` with
the validated interface name and option record, or the `fail0` path
(report error, then report the instance dead, before any lease engine was
started) is taken after logging the given message, or the out-of-bounds
list access of the option loop happens first. -/
inductive NewResult where
  | startEngine (ifname : String) (opts : BDHCPClient_opts)
  | fail (msg : String)
  | oobAccess
deriving DecidableEq

/-- Whether the construction outcome reaches `BDHCPClient_Init`, i.e.
whether a Lease Engine is started. -/
def NewResult.startsEngine : NewResult → Bool
  | .startEngine _ _ => true
  | _ => false

/-- The option list scanned by the loop: `count = NCDVal_IsInvalid(opts_arg)
? 0 : NCDVal_ListCount(opts_arg)` with elements via `NCDVal_ListGet`
(`none` models `NCDVal_NewInvalid()`, the one-argument form). -/
def optsListOf : Option NCDVal → List NCDVal
  | some (.list es) => es
  | _ => []

/-- Argument validation and option reading of `func_new` once arity is
established (lines 114-172): type check on the interface name and the
optional option-list argument, then the option loop, then (on success)
`BDHCPClient_Init`. -/
def func_new_checked (ifname_arg : NCDVal) (opts_arg : Option NCDVal) : NewResult :=
  if !(NCDVal_IsStringNoNulls ifname_arg)
      || (opts_arg.isSome && !(NCDVal_IsList (opts_arg.getD (.str "")))) then
    .fail ("wrong type")
  else
    match parseLoop (optsListOf opts_arg) {} 0 with
    | .ok opts => .startEngine (NCDVal_StringValue ifname_arg) opts
    | .err msg => .fail msg
    | .oobGet => .oobAccess

/-- Embedding of `func_new` (lines 102-177): `NCDVal_ListRead(args, 1, ...)`
succeeds exactly on a 1-element argument list and `NCDVal_ListRead(args, 2,
...)` on a 2-element one; any other arity takes the `fail0` path with
"wrong arity". -/
def func_new (args : List NCDVal) : NewResult :=
  match args with
  | [ifname_arg] => func_new_checked ifname_arg none
  | [ifname_arg, opts_arg] => func_new_checked ifname_arg (some opts_arg)
  | _ => .fail ("wrong arity")

/-- Abstract well-formed option items: each `hostname`/`vendorclassid`
occurrence carries a value string, `auto_clientid` stands alone. Used to
state which option lists the scan accepts and how many slots each item
occupies. -/
inductive AbsOpt where
  | hostnameOpt (v : String)
  | vendorOpt (v : String)
  | autoOpt
deriving DecidableEq

/-- Concrete list slots occupied by one abstract option: two consecutive
slots for `hostname`/`vendorclassid` (name then value), one slot for
`auto_clientid`. -/
def encodeOpt : AbsOpt → List NCDVal
  | .hostnameOpt v => [.str ("hostname"), .str v]
  | .vendorOpt v => [.str ("vendorclassid"), .str v]
  | .autoOpt => [.str ("auto_clientid")]

/-- Concatenation of the slots of a sequence of abstract options. -/
def encodeOpts : List AbsOpt → List NCDVal
  | [] => []
  | o :: s => encodeOpt o ++ encodeOpts s

/-- An abstract option is valid when its value string (if any) has no nul
bytes. -/
def absOptValid : AbsOpt → Bool
  | .hostnameOpt v => strNoNulls v
  | .vendorOpt v => strNoNulls v
  | .autoOpt => true

/-- All options of the sequence are valid. -/
def validOpts (s : List AbsOpt) : Bool := s.all absOptValid

/-- Effect of one abstract option on the option record, mirroring the
assignments in the loop body. -/
def applyOpt (acc : BDHCPClient_opts) : AbsOpt → BDHCPClient_opts
  | .hostnameOpt v => { acc with hostname := some v }
  | .vendorOpt v => { acc with vendorclassid := some v }
  | .autoOpt => { acc with auto_clientid := true }

/-- Left-to-right effect of a sequence of abstract options. -/
def applyOpts (acc : BDHCPClient_opts) : List AbsOpt → BDHCPClient_opts
  | [] => acc
  | o :: s => applyOpts (applyOpt acc o) s

/-- The Lease Engine's event codes `BDHCPCLIENT_EVENT_UP`,
`BDHCPCLIENT_EVENT_DOWN`, `BDHCPCLIENT_EVENT_ERROR`. -/
inductive BDHCPClientEvent where
  | up
  | down
  | error
deriving DecidableEq

/-- Host-facing actions performed by the module, in program order:
`NCDModuleInst_Backend_Up` / `_Down` (report "up"/"down"),
`_SetError` (report error), `BDHCPClient_Free` (release the Lease Engine
handle), `_Dead` (report the instance destroyed). -/
inductive HostAction where
  | backendUp
  | backendDown
  | setError
  | freeDhcp
  | backendDead
deriving DecidableEq

/-- Embedding of `instance_free` (lines 179-185): release the DHCP client,
then report the instance dead — in that order. -/
def instance_free_actions : List HostAction := [.freeDhcp, .backendDead]

/-- Result of one invocation of the event callback: a transition to a new
`up` flag with the actions performed, destruction of the instance with the
actions performed, or a failed `ASSERT` defensive check. -/
inductive HandlerResult where
  | transition (up : Bool) (actions : List HostAction)
  | destroyed (actions : List HostAction)
  | assertFail
deriving DecidableEq

/-- Embedding of `dhcp_handler` (lines 77-100). `up` is the instance's
`o->up` flag at entry. `EVENT_UP` asserts `!o->up`, sets the flag and
reports "up"; `EVENT_DOWN` asserts `o->up`, clears the flag and reports
"down"; `EVENT_ERROR` reports the error and runs `instance_free`. -/
def dhcp_handler (up : Bool) : BDHCPClientEvent → HandlerResult
  | .up => if up then .assertFail else .transition true [.backendUp]
  | .down => if up then .transition false [.backendDown] else .assertFail
  | .error => .destroyed (.setError :: instance_free_actions)

/-- Embedding of `func_die` (lines 187-192): an explicit destruction request
from the host runs exactly `instance_free`. -/
def func_die_actions : List HostAction := instance_free_actions

/-- Modelled from the spec: the dotted-quad address printing of
`ipaddr_print_addr` (misc/ipaddr.h, which is not part of the provided
source). A 32-bit address is printed as four decimal byte components,
the first dotted-quad component being the most significant byte. -/
def ipaddr_print_addr (a : Nat) : String :=
  toString (a / 2 ^ 24 % 256) ++ "." ++ toString (a / 2 ^ 16 % 256) ++ "." ++
    toString (a / 2 ^ 8 % 256) ++ "." ++ toString (a % 256)

/-- The contiguous mask with `n` leading one bits (n ≤ 32), as a 32-bit
quantity. -/
def cidrMask (n : Nat) : Nat := 2 ^ 32 - 2 ^ (32 - n)

/-- Modelled from the spec: the mask validation of
`ipaddr_ipv4_ifaddr_from_addr_mask` (misc/ipaddr.h, not part of the
provided source). It succeeds exactly when the mask consists of some number
`n ≤ 32` of leading one bits followed only by zero bits, and returns that
CIDR prefix length `n`; on any other mask it fails. -/
def maskCidrLen (mask : Nat) : Option Nat :=
  (List.range 33).find? (fun n => cidrMask n == mask)

/-- One hexadecimal digit, uppercase, as produced by the `%02X` conversion. -/
def hexDigitUpper (n : Nat) : Char :=
  if n < 10 then Char.ofNat (48 + n) else Char.ofNat (55 + n)

/-- One byte under `%02X`: two uppercase hexadecimal digits,
zero-padded. -/
def byteHex (b : Nat) : String :=
  String.mk [hexDigitUpper (b / 16), hexDigitUpper (b % 16)]

/-- Embedding of the `sprintf` in the `server_mac` branch: six bytes, each
under `%02X`, separated by colons, `mac[0]` first. -/
def formatServerMAC (mac : List Nat) : String :=
  byteHex (mac.getD 0 0) ++ ":" ++ byteHex (mac.getD 1 0) ++ ":" ++ byteHex (mac.getD 2 0) ++
    ":" ++ byteHex (mac.getD 3 0) ++ ":" ++ byteHex (mac.getD 4 0) ++ ":" ++ byteHex (mac.getD 5 0)

/-- The Lease Engine's current lease snapshot, answered by the
`BDHCPClient_Get*` queries: client address, subnet mask, optional router
(`BDHCPClient_GetRouter` returning 0 is modelled as `none`), DNS server
list, 6-byte server MAC. -/
structure LeaseSnapshot where
  clientIP : Nat
  clientMask : Nat
  router : Option Nat
  dnsServers : List Nat
  serverMAC : List Nat

/-- Observable events of one `func_getvar` call: `ModuleLog(...,
BLOG_ERROR, msg)` and the individual Lease Engine queries. -/
inductive QEvent where
  | logError (msg : String)
  | qClientIP
  | qClientMask
  | qRouter
  | qDNS
  | qServerMAC
deriving DecidableEq

/-- The mutable per-instance state of `struct instance` observable by the
claims: the `up` flag. -/
structure DhcpInstance where
  up : Bool
deriving DecidableEq

/-- Embedding of `func_getvar` (lines 194-320). The outer `Option` is the
`ASSERT(o->up)` defensive check (`none` = assertion failure). On entry with
`up` set it returns the produced value (`none` = C return value 0, no
value), the trace of engine queries and error logs in program order, and
the instance state after the call — which the C function never writes. -/
def func_getvar (o : DhcpInstance) (snap : LeaseSnapshot) (name : String) :
    Option (Option NCDVal × List QEvent × DhcpInstance) :=
  if o.up then
    some (
      if name == "addr" then
        (some (.str (ipaddr_print_addr snap.clientIP)), [.qClientIP], o)
      else if name == "prefix" then
        match maskCidrLen snap.clientMask with
        | none => (none, [.qClientIP, .qClientMask, .logError ("bad netmask")], o)
        | some n => (some (.str (toString n)), [.qClientIP, .qClientMask], o)
      else if name == "cidr_addr" then
        match maskCidrLen snap.clientMask with
        | none => (none, [.qClientIP, .qClientMask, .logError ("bad netmask")], o)
        | some n =>
          (some (.str (ipaddr_print_addr snap.clientIP ++ "/" ++ toString n)),
            [.qClientIP, .qClientMask], o)
      else if name == "gateway" then
        match snap.router with
        | none => (some (.str ("none")), [.qRouter], o)
        | some a => (some (.str (ipaddr_print_addr a)), [.qRouter], o)
      else if name == "dns_servers" then
        (some (.list (snap.dnsServers.map (fun a => .str (ipaddr_print_addr a)))), [.qDNS], o)
      else if name == "server_mac" then
        (some (.str (formatServerMAC snap.serverMAC)), [.qServerMAC], o)
      else (none, [], o))
  else none

lemma ncdval_eq_str (v : NCDVal) (h : NCDVal_IsStringNoNulls v = true) :
    v = .str (NCDVal_StringValue v) := by
  cases v <;> simp_all [NCDVal_IsStringNoNulls, NCDVal_StringValue]

lemma strNoNulls_of_isString (v : NCDVal) (h : NCDVal_IsStringNoNulls v = true) :
    strNoNulls (NCDVal_StringValue v) = true := by
  cases v <;> simp_all [NCDVal_IsStringNoNulls, NCDVal_StringValue]

lemma parseLoop_no_missing (l : List NCDVal) (acc : BDHCPClient_opts) (j : Nat) :
    parseLoop l acc j ≠ ParseResult.err ("option value missing") := by
  induction acc, j using parseLoop.induct l with
  | case1 acc j h h1 h2 h3 => simp at h3; omega
  | case2 acc j h h1 h2 h3 h4 h5 ih =>
    rw [parseLoop.eq_def]
    simp only [dif_pos h, if_pos h1, if_pos h2, if_neg h3, dif_pos h4, if_pos h5]
    exact ih
  | case3 acc j h h1 h2 h3 h4 h5 =>
    rw [parseLoop.eq_def]
    simp only [dif_pos h, if_pos h1, if_pos h2, if_neg h3, dif_pos h4, if_neg h5]
    simp
  | case4 acc j h h1 h2 h3 h4 =>
    rw [parseLoop.eq_def]
    simp only [dif_pos h, if_pos h1, if_pos h2, if_neg h3, dif_neg h4]
    simp
  | case5 acc j h h1 h2 h3 ih =>
    rw [parseLoop.eq_def]
    simp only [dif_pos h, if_pos h1, if_neg h2, if_pos h3]
    exact ih
  | case6 acc j h h1 h2 h3 =>
    rw [parseLoop.eq_def]
    simp only [dif_pos h, if_pos h1, if_neg h2, if_neg h3]
    simp
  | case7 acc j h h1 =>
    rw [parseLoop.eq_def]
    simp only [dif_pos h, if_neg h1]
    simp
  | case8 acc j h =>
    rw [parseLoop.eq_def]
    simp only [dif_neg h]
    simp

lemma func_new_checked_no_missing (a : NCDVal) (ob : Option NCDVal) :
    func_new_checked a ob ≠ .fail ("option value missing") := by
  unfold func_new_checked
  split
  · simp
  · cases heq : parseLoop (optsListOf ob) {} 0 with
    | ok opts => simp [heq]
    | err msg =>
      simp only [heq, ne_eq, NewResult.fail.injEq]
      intro hcon
      rw [hcon] at heq
      exact parseLoop_no_missing _ _ _ heq
    | oobGet => simp [heq]

lemma func_new_no_missing (args : List NCDVal) :
    func_new args ≠ .fail ("option value missing") := by
  cases args with
  | nil => simp [func_new]
  | cons a t =>
    cases t with
    | nil => exact func_new_checked_no_missing a none
    | cons b t2 =>
      cases t2 with
      | nil => exact func_new_checked_no_missing a (some b)
      | cons c t3 => simp [func_new]

lemma parseLoop_terminal (l : List NCDVal) (acc : BDHCPClient_opts) (j : Nat)
    (h : l.drop j = []) : parseLoop l acc j = .ok acc := by
  rw [parseLoop.eq_def]
  have := List.drop_eq_nil_iff.mp h
  simp [Nat.not_lt_of_le this]

lemma parseLoop_skip (s : List AbsOpt) (l rest : List NCDVal) (acc : BDHCPClient_opts) (j : Nat)
    (hv : validOpts s = true) (hd : l.drop j = encodeOpts s ++ rest) :
    parseLoop l acc j = parseLoop l (applyOpts acc s) (j + (encodeOpts s).length) := by
  induction s generalizing acc j with
  | nil => simp [encodeOpts, applyOpts]
  | cons o s ih =>
    have hj : j < l.length := by
      by_contra hc
      rw [List.drop_eq_nil_of_le (Nat.le_of_not_lt hc)] at hd
      cases o <;> simp [encodeOpts, encodeOpt] at hd
    have hdj := List.drop_eq_getElem_cons hj
    have hne : (j == l.length) = false := by simp; omega
    cases o with
    | hostnameOpt v =>
      rw [hdj] at hd
      simp only [encodeOpts, encodeOpt, List.cons_append, List.cons.injEq] at hd
      obtain ⟨hget, hrest⟩ := hd
      have hj1 : j + 1 < l.length := by
        by_contra hc
        rw [List.drop_eq_nil_of_le (Nat.le_of_not_lt hc)] at hrest
        simp at hrest
      rw [List.drop_eq_getElem_cons hj1] at hrest
      simp only [List.cons.injEq] at hrest
      obtain ⟨hget1, hrest1⟩ := hrest
      have hvv : strNoNulls v = true := by
        simp [validOpts, absOptValid] at hv; exact hv.1
      have hvs : validOpts s = true := by
        simp [validOpts] at hv ⊢; exact hv.2
      have step : parseLoop l acc j = parseLoop l { acc with hostname := some v } (j + 2) := by
        rw [parseLoop.eq_def, dif_pos hj]
        simp only [hget, NCDVal_IsStringNoNulls, NCDVal_StringValue, hvv, hne, dif_pos hj1, hget1]
        simp [strNoNulls]
      rw [step, ih { acc with hostname := some v } (j + 2) hvs (by simpa using hrest1)]
      simp only [applyOpts, applyOpt, encodeOpts, encodeOpt]
      congr 1
      simp
      omega
    | vendorOpt v =>
      rw [hdj] at hd
      simp only [encodeOpts, encodeOpt, List.cons_append, List.cons.injEq] at hd
      obtain ⟨hget, hrest⟩ := hd
      have hj1 : j + 1 < l.length := by
        by_contra hc
        rw [List.drop_eq_nil_of_le (Nat.le_of_not_lt hc)] at hrest
        simp at hrest
      rw [List.drop_eq_getElem_cons hj1] at hrest
      simp only [List.cons.injEq] at hrest
      obtain ⟨hget1, hrest1⟩ := hrest
      have hvv : strNoNulls v = true := by
        simp [validOpts, absOptValid] at hv; exact hv.1
      have hvs : validOpts s = true := by
        simp [validOpts] at hv ⊢; exact hv.2
      have step : parseLoop l acc j = parseLoop l { acc with vendorclassid := some v } (j + 2) := by
        rw [parseLoop.eq_def, dif_pos hj]
        simp only [hget, NCDVal_IsStringNoNulls, NCDVal_StringValue, hvv, hne, dif_pos hj1, hget1]
        simp [strNoNulls]
      rw [step, ih { acc with vendorclassid := some v } (j + 2) hvs (by simpa using hrest1)]
      simp only [applyOpts, applyOpt, encodeOpts, encodeOpt]
      congr 1
      simp
      omega
    | autoOpt =>
      rw [hdj] at hd
      simp only [encodeOpts, encodeOpt, List.cons_append, List.cons.injEq] at hd
      obtain ⟨hget, hrest⟩ := hd
      have hvs : validOpts s = true := by
        simp [validOpts] at hv ⊢; exact hv.2
      have step : parseLoop l acc j = parseLoop l { acc with auto_clientid := true } (j + 1) := by
        rw [parseLoop.eq_def, dif_pos hj]
        simp only [hget, NCDVal_IsStringNoNulls, NCDVal_StringValue]
        simp [strNoNulls]
      rw [step, ih { acc with auto_clientid := true } (j + 1) hvs (by simpa using hrest)]
      simp only [applyOpts, applyOpt, encodeOpts, encodeOpt]
      congr 1
      simp
      omega

lemma parseLoop_ok_inv (l : List NCDVal) (acc : BDHCPClient_opts) (j : Nat)
    (r : BDHCPClient_opts) (h : parseLoop l acc j = .ok r) :
    ∃ s : List AbsOpt, l.drop j = encodeOpts s ∧ validOpts s = true ∧ r = applyOpts acc s := by
  induction acc, j using parseLoop.induct l with
  | case1 acc j hj h1 h2 h3 => simp at h3; omega
  | case2 acc j hj h1 h2 h3 h4 h5 ih =>
    rw [parseLoop.eq_def] at h
    simp only [dif_pos hj, if_pos h1, if_pos h2, if_neg h3, dif_pos h4, if_pos h5] at h
    obtain ⟨s', hd', hv', hr'⟩ := ih h
    have hval : l[j + 1] = .str (NCDVal_StringValue l[j + 1]) := ncdval_eq_str _ h5
    have hvalok := strNoNulls_of_isString _ h5
    by_cases hb : (NCDVal_StringValue l[j] == "hostname") = true
    · refine ⟨.hostnameOpt (NCDVal_StringValue l[j + 1]) :: s', ?_, ?_, ?_⟩
      · rw [List.drop_eq_getElem_cons hj, List.drop_eq_getElem_cons h4]
        have hname : l[j] = .str ("hostname") := by
          rw [ncdval_eq_str _ h1]
          simp at hb
          rw [hb]
        rw [hname, hval]
        simpa [encodeOpts, encodeOpt, NCDVal_StringValue] using hd'
      · simp [validOpts, absOptValid] at hv' ⊢
        exact ⟨hvalok, hv'⟩
      · rw [dif_pos hb] at hr'
        simpa [applyOpts, applyOpt] using hr'
    · have hb2 : (NCDVal_StringValue l[j] == "vendorclassid") = true := by
        rcases Bool.or_eq_true_iff.mp h2 with hx | hx
        · exact absurd hx hb
        · exact hx
      refine ⟨.vendorOpt (NCDVal_StringValue l[j + 1]) :: s', ?_, ?_, ?_⟩
      · rw [List.drop_eq_getElem_cons hj, List.drop_eq_getElem_cons h4]
        have hname : l[j] = .str ("vendorclassid") := by
          rw [ncdval_eq_str _ h1]
          simp at hb2
          rw [hb2]
        rw [hname, hval]
        simpa [encodeOpts, encodeOpt, NCDVal_StringValue] using hd'
      · simp [validOpts, absOptValid] at hv' ⊢
        exact ⟨hvalok, hv'⟩
      · rw [dif_neg hb] at hr'
        simpa [applyOpts, applyOpt] using hr'
  | case3 acc j hj h1 h2 h3 h4 h5 =>
    rw [parseLoop.eq_def] at h
    simp only [dif_pos hj, if_pos h1, if_pos h2, if_neg h3, dif_pos h4, if_neg h5] at h
    simp at h
  | case4 acc j hj h1 h2 h3 h4 =>
    rw [parseLoop.eq_def] at h
    simp only [dif_pos hj, if_pos h1, if_pos h2, if_neg h3, dif_neg h4] at h
    simp at h
  | case5 acc j hj h1 h2 h3 ih =>
    rw [parseLoop.eq_def] at h
    simp only [dif_pos hj, if_pos h1, if_neg h2, if_pos h3] at h
    obtain ⟨s', hd', hv', hr'⟩ := ih h
    refine ⟨.autoOpt :: s', ?_, ?_, ?_⟩
    · rw [List.drop_eq_getElem_cons hj]
      have hname : l[j] = .str ("auto_clientid") := by
        rw [ncdval_eq_str _ h1]
        simp at h3
        rw [h3]
      rw [hname]
      simpa [encodeOpts, encodeOpt] using hd'
    · simp [validOpts, absOptValid] at hv' ⊢
      exact hv'
    · simpa [applyOpts, applyOpt] using hr'
  | case6 acc j hj h1 h2 h3 =>
    rw [parseLoop.eq_def] at h
    simp only [dif_pos hj, if_pos h1, if_neg h2, if_neg h3] at h
    simp at h
  | case7 acc j hj h1 =>
    rw [parseLoop.eq_def] at h
    simp only [dif_pos hj, if_neg h1] at h
    simp at h
  | case8 acc j hj =>
    rw [parseLoop.eq_def] at h
    simp only [dif_neg hj] at h
    refine ⟨[], ?_, ?_, ?_⟩
    · exact List.drop_eq_nil_of_le (Nat.le_of_not_lt hj)
    · simp [validOpts]
    · simp only [ParseResult.ok.injEq] at h
      simp [applyOpts, h]

lemma parseLoop_unknown (l rest : List NCDVal) (acc : BDHCPClient_opts) (j : Nat)
    (bogus : String) (hb : strNoNulls bogus = true) (h1 : bogus ≠ "hostname")
    (h2 : bogus ≠ "vendorclassid") (h3 : bogus ≠ "auto_clientid")
    (hd : l.drop j = .str bogus :: rest) :
    parseLoop l acc j = .err ("unknown option name") := by
  have hj : j < l.length := by
    by_contra hc
    rw [List.drop_eq_nil_of_le (Nat.le_of_not_lt hc)] at hd
    simp at hd
  have hget : l[j] = .str bogus := by
    rw [List.drop_eq_getElem_cons hj] at hd
    exact (List.cons.injEq _ _ _ _ ▸ hd).1
  rw [parseLoop.eq_def, dif_pos hj]
  simp [hget, NCDVal_IsStringNoNulls, NCDVal_StringValue, hb, h1, h2, h3]

/-- C1: the claim says an option list in which `hostname` or
`vendorclassid` appears as the last entry fails construction with
MissingValueError ("option value missing"). In the code the guard
`if (j == count)` protecting that error is dead — the loop body only runs
when `j < count` — so such lists instead reach the out-of-bounds
`NCDVal_ListGet(opts_arg, j + 1)` with `j + 1 = count`: no execution of
the option loop can produce the "option value missing" error. Only the
second half of the claim (a present value of the wrong type fails with
TypeError, "wrong option value type") holds. -/
theorem missing_value_check_is_dead :
    func_new [.str ("eth0"), .list [.str ("hostname")]] = .oobAccess ∧
    func_new [.str ("eth0"), .list [.str ("vendorclassid")]] = .oobAccess ∧
    (∀ (l : List NCDVal) (acc : BDHCPClient_opts) (j : Nat),
      parseLoop l acc j ≠ .err ("option value missing")) ∧
    (∀ args : List NCDVal, func_new args ≠ .fail ("option value missing")) ∧
    func_new [.str ("eth0"), .list [.str ("hostname"), .list []]] =
      .fail ("wrong option value type") := by
  refine ⟨?_, ?_, parseLoop_no_missing, func_new_no_missing, ?_⟩
  all_goals
    simp [func_new, func_new_checked, optsListOf, parseLoop.eq_def, NCDVal_IsStringNoNulls,
      NCDVal_StringValue, NCDVal_IsList, strNoNulls]

/-- C2: the event handler implements exactly the transition table: in
NotUp (`up = false`) a lease-acquired event marks the instance Up and
reports "up"; in Up a lease-lost event marks it NotUp and reports "down";
a lease-acquired event while already Up, or a lease-lost event while
NotUp, fails the `ASSERT` defensive check — neither a silent no-op nor a
recoverable transition. -/
theorem dhcp_handler_transition_table :
    dhcp_handler false .up = .transition true [.backendUp] ∧
    dhcp_handler true .down = .transition false [.backendDown] ∧
    dhcp_handler true .up = .assertFail ∧
    dhcp_handler false .down = .assertFail := by decide

/-- C3: a fatal-error event, in either lifecycle state, destroys the
instance with the exact action trace error-report, engine-release,
destroyed-report: exactly one error report, exactly one destroyed report,
the Lease Engine handle released exactly once and strictly before the
destroyed report. An explicit destruction request (`func_die`) performs
the same release-before-destroyed ordering. -/
theorem fatal_error_release_before_dead :
    dhcp_handler false .error = .destroyed [.setError, .freeDhcp, .backendDead] ∧
    dhcp_handler true .error = .destroyed [.setError, .freeDhcp, .backendDead] ∧
    List.count HostAction.setError [HostAction.setError, .freeDhcp, .backendDead] = 1 ∧
    List.count HostAction.backendDead [HostAction.setError, .freeDhcp, .backendDead] = 1 ∧
    List.count HostAction.freeDhcp [HostAction.setError, .freeDhcp, .backendDead] = 1 ∧
    List.indexOf HostAction.setError [HostAction.setError, .freeDhcp, .backendDead] <
      List.indexOf HostAction.backendDead [HostAction.setError, .freeDhcp, .backendDead] ∧
    List.indexOf HostAction.freeDhcp [HostAction.setError, .freeDhcp, .backendDead] <
      List.indexOf HostAction.backendDead [HostAction.setError, .freeDhcp, .backendDead] ∧
    func_die_actions = [.freeDhcp, .backendDead] ∧
    List.count HostAction.freeDhcp func_die_actions = 1 ∧
    List.count HostAction.backendDead func_die_actions = 1 ∧
    List.indexOf HostAction.freeDhcp func_die_actions <
      List.indexOf HostAction.backendDead func_die_actions := by decide

/-- C4: when the lease snapshot's subnet mask is not a contiguous prefix
mask, the `prefix` and `cidr_addr` queries fail — an error is logged and
no value is produced — while the failure stays local: the instance state
is returned unchanged (still Up) and the `addr` query on the very same
snapshot still produces its value. The mask 255.0.255.0 (= 4278255360) is
such an invalid mask, while 255.255.255.0 has prefix length 24. -/
theorem invalid_mask_local_query_failure :
    (∀ (o : DhcpInstance) (snap : LeaseSnapshot), o.up = true →
      maskCidrLen snap.clientMask = none →
      func_getvar o snap ("prefix") =
        some (none, [.qClientIP, .qClientMask, .logError ("bad netmask")], o) ∧
      func_getvar o snap ("cidr_addr") =
        some (none, [.qClientIP, .qClientMask, .logError ("bad netmask")], o) ∧
      func_getvar o snap ("addr") =
        some (some (.str (ipaddr_print_addr snap.clientIP)), [.qClientIP], o)) ∧
    maskCidrLen 4278255360 = none ∧
    maskCidrLen 4294967040 = some 24 := by
  refine ⟨?_, by decide, by decide⟩
  intro o snap hup hm
  refine ⟨?_, ?_, ?_⟩ <;> simp [func_getvar, hup, hm]

theorem invalid_mask_local_query_failure_witness :
    (DhcpInstance.mk true).up = true ∧
    maskCidrLen (LeaseSnapshot.mk 3232235826 4278255360 none [] []).clientMask = none ∧
    (func_getvar (DhcpInstance.mk true) (LeaseSnapshot.mk 3232235826 4278255360 none [] [])
        ("prefix") =
      some (none, [.qClientIP, .qClientMask, .logError ("bad netmask")], DhcpInstance.mk true) ∧
    func_getvar (DhcpInstance.mk true) (LeaseSnapshot.mk 3232235826 4278255360 none [] [])
        ("cidr_addr") =
      some (none, [.qClientIP, .qClientMask, .logError ("bad netmask")], DhcpInstance.mk true) ∧
    func_getvar (DhcpInstance.mk true) (LeaseSnapshot.mk 3232235826 4278255360 none [] [])
        ("addr") =
      some (some (.str (ipaddr_print_addr
        (LeaseSnapshot.mk 3232235826 4278255360 none [] []).clientIP)),
        [.qClientIP], DhcpInstance.mk true)) :=
  ⟨rfl, by decide, invalid_mask_local_query_failure.1 (DhcpInstance.mk true)
    (LeaseSnapshot.mk 3232235826 4278255360 none [] []) rfl (by decide)⟩

/-- C5: the left-to-right scan consumes exactly one list slot per
`auto_clientid` occurrence and exactly two consecutive slots per
`hostname`/`vendorclassid` occurrence: the scan accepts precisely the
lists that decompose into such 1- and 2-slot groups (`encodeOpts`), with
the record built by the corresponding slot-wise effects, and the second
slot of a 2-slot group is taken as the value, never interpreted as an
option name — e.g. the list ["hostname", "vendorclassid"] sets
hostname := "vendorclassid". -/
theorem option_scan_slot_consumption :
    (∀ s : List AbsOpt, validOpts s = true →
      parseLoop (encodeOpts s) {} 0 = .ok (applyOpts {} s)) ∧
    (∀ (l : List NCDVal) (r : BDHCPClient_opts), parseLoop l {} 0 = .ok r →
      ∃ s : List AbsOpt, l = encodeOpts s ∧ validOpts s = true ∧ r = applyOpts {} s) ∧
    parseLoop [.str ("hostname"), .str ("vendorclassid")] {} 0 =
      .ok { hostname := some ("vendorclassid") } := by
  refine ⟨?_, ?_, ?_⟩
  · intro s hv
    rw [parseLoop_skip s (encodeOpts s) [] {} 0 hv (by simp)]
    exact parseLoop_terminal _ _ _ (by simp)
  · intro l r h
    obtain ⟨s, hd, hv2, hr⟩ := parseLoop_ok_inv l {} 0 r h
    exact ⟨s, by simpa using hd, hv2, hr⟩
  · simp [parseLoop.eq_def, NCDVal_IsStringNoNulls, NCDVal_StringValue, strNoNulls]

theorem option_scan_slot_consumption_witness :
    validOpts [.hostnameOpt ("myhost"), .autoOpt, .vendorOpt ("vid")] = true ∧
    parseLoop (encodeOpts [.hostnameOpt ("myhost"), .autoOpt, .vendorOpt ("vid")]) {} 0 =
      .ok (applyOpts {} [.hostnameOpt ("myhost"), .autoOpt, .vendorOpt ("vid")]) ∧
    (∃ s : List AbsOpt, [NCDVal.str ("auto_clientid")] = encodeOpts s ∧ validOpts s = true ∧
      BDHCPClient_opts.mk none none true = applyOpts {} s) :=
  ⟨by decide, option_scan_slot_consumption.1 _ (by decide),
    option_scan_slot_consumption.2.1 [NCDVal.str ("auto_clientid")]
      (BDHCPClient_opts.mk none none true)
      (by simp [parseLoop.eq_def, NCDVal_IsStringNoNulls, NCDVal_StringValue, strNoNulls])⟩

/-- C6: construction accepts exactly one positional argument or exactly
two; any other arity fails with "wrong arity". A non-string or
nul-containing interface name, or a present options argument that is not
a list, fails with "wrong type". Every failure outcome is distinct from
the engine-starting outcome (the Lease Engine is never started), while the
two accepted arities with well-typed arguments do reach engine start. -/
theorem construction_arity_and_type_errors :
    (∀ args : List NCDVal, args.length ≠ 1 → args.length ≠ 2 →
      func_new args = .fail ("wrong arity")) ∧
    (∀ a : NCDVal, NCDVal_IsStringNoNulls a = false → func_new [a] = .fail ("wrong type")) ∧
    (∀ a b : NCDVal, NCDVal_IsStringNoNulls a = false → func_new [a, b] = .fail ("wrong type")) ∧
    (∀ a b : NCDVal, NCDVal_IsStringNoNulls a = true → NCDVal_IsList b = false →
      func_new [a, b] = .fail ("wrong type")) ∧
    (∀ (args : List NCDVal) (msg : String),
      func_new args = .fail msg → (func_new args).startsEngine = false) ∧
    func_new [.str ("eth0")] = .startEngine ("eth0") {} ∧
    func_new [.str ("eth0"), .list []] = .startEngine ("eth0") {} := by
  refine ⟨?_, ?_, ?_, ?_, ?_, ?_, ?_⟩
  · intro args h1 h2
    cases args with
    | nil => rfl
    | cons a t =>
      cases t with
      | nil => simp at h1
      | cons b t2 =>
        cases t2 with
        | nil => simp at h2
        | cons c t3 => rfl
  · intro a h
    simp [func_new, func_new_checked, h]
  · intro a b h
    simp [func_new, func_new_checked, h]
  · intro a b ha hb
    simp [func_new, func_new_checked, ha, hb]
  · intro args msg h
    rw [h]
    rfl
  · simp [func_new, func_new_checked, optsListOf, parseLoop.eq_def, NCDVal_IsStringNoNulls,
      NCDVal_StringValue, NCDVal_IsList, strNoNulls]
  · simp [func_new, func_new_checked, optsListOf, parseLoop.eq_def, NCDVal_IsStringNoNulls,
      NCDVal_StringValue, NCDVal_IsList, strNoNulls]

theorem construction_arity_and_type_errors_witness :
    ([] : List NCDVal).length ≠ 1 ∧ ([] : List NCDVal).length ≠ 2 ∧
    func_new [] = .fail ("wrong arity") ∧
    NCDVal_IsStringNoNulls (.list []) = false ∧
    func_new [.list []] = .fail ("wrong type") ∧
    NCDVal_IsStringNoNulls (.str ("eth0")) = true ∧
    NCDVal_IsList (.str ("nolist")) = false ∧
    func_new [.str ("eth0"), .str ("nolist")] = .fail ("wrong type") :=
  ⟨by decide, by decide,
    construction_arity_and_type_errors.1 [] (by decide) (by decide),
    rfl, construction_arity_and_type_errors.2.1 (.list []) rfl,
    by decide, rfl,
    construction_arity_and_type_errors.2.2.2.1 (.str ("eth0")) (.str ("nolist"))
      (by decide) rfl⟩

/-- C7: any option list whose scan reaches a name position holding a
nul-free string other than `hostname`, `vendorclassid` or `auto_clientid`
fails construction with "unknown option name", and the Lease Engine is
never started. Name positions are the slot-group boundaries: any valid
prefix of options followed by the unrecognized name, whatever comes
after. -/
theorem unknown_option_fails_construction :
    ∀ (ifn : NCDVal) (s : List AbsOpt) (bogus : String) (rest : List NCDVal),
      NCDVal_IsStringNoNulls ifn = true → validOpts s = true →
      strNoNulls bogus = true → bogus ≠ "hostname" → bogus ≠ "vendorclassid" →
      bogus ≠ "auto_clientid" →
      func_new [ifn, .list (encodeOpts s ++ .str bogus :: rest)] =
        .fail ("unknown option name") ∧
      (func_new [ifn, .list (encodeOpts s ++ .str bogus :: rest)]).startsEngine = false := by
  intro ifn s bogus rest hifn hv hb h1 h2 h3
  have hdl : (encodeOpts s ++ NCDVal.str bogus :: rest).drop (0 + (encodeOpts s).length) =
      NCDVal.str bogus :: rest := by
    rw [Nat.zero_add]
    exact List.drop_left _ _
  have hparse : parseLoop (encodeOpts s ++ .str bogus :: rest) {} 0 =
      .err ("unknown option name") := by
    rw [parseLoop_skip s _ (NCDVal.str bogus :: rest) {} 0 hv (by simp)]
    exact parseLoop_unknown _ rest _ _ bogus hb h1 h2 h3 hdl
  have hmain : func_new [ifn, .list (encodeOpts s ++ .str bogus :: rest)] =
      .fail ("unknown option name") := by
    show func_new_checked ifn (some (.list (encodeOpts s ++ .str bogus :: rest))) = _
    unfold func_new_checked
    rw [if_neg (by simp [hifn, NCDVal_IsList])]
    simp only [optsListOf]
    rw [hparse]
  refine ⟨hmain, ?_⟩
  rw [hmain]
  rfl

theorem unknown_option_fails_construction_witness :
    NCDVal_IsStringNoNulls (NCDVal.str ("eth0")) = true ∧
    validOpts [AbsOpt.autoOpt] = true ∧
    strNoNulls ("dns") = true ∧
    func_new [.str ("eth0"), .list (encodeOpts [AbsOpt.autoOpt] ++ NCDVal.str ("dns") :: [])] =
      .fail ("unknown option name") ∧
    (func_new [.str ("eth0"),
      .list (encodeOpts [AbsOpt.autoOpt] ++ NCDVal.str ("dns") :: [])]).startsEngine = false :=
  ⟨by decide, by decide, by decide,
    (unknown_option_fails_construction (.str ("eth0")) [AbsOpt.autoOpt] ("dns") []
      (by decide) (by decide) (by decide) (by decide) (by decide) (by decide)).1,
    (unknown_option_fails_construction (.str ("eth0")) [AbsOpt.autoOpt] ("dns") []
      (by decide) (by decide) (by decide) (by decide) (by decide) (by decide)).2⟩

/-- C8: the `gateway` query yields the literal string "none" exactly when
the Lease Engine's router query reports no router, and otherwise the
dotted-quad router address; absence is driven by the engine's query
result, not by a sentinel address — a reported router address of 0 still
prints as "0.0.0.0", not "none". -/
theorem gateway_none_or_dotted_quad :
    (∀ (o : DhcpInstance) (snap : LeaseSnapshot), o.up = true → snap.router = none →
      func_getvar o snap ("gateway") = some (some (.str ("none")), [.qRouter], o)) ∧
    (∀ (o : DhcpInstance) (snap : LeaseSnapshot) (a : Nat), o.up = true →
      snap.router = some a →
      func_getvar o snap ("gateway") = some (some (.str (ipaddr_print_addr a)), [.qRouter], o)) ∧
    (∀ (o : DhcpInstance) (snap : LeaseSnapshot), o.up = true → snap.router = some 0 →
      func_getvar o snap ("gateway") = some (some (.str ("0.0.0.0")), [.qRouter], o)) ∧
    ipaddr_print_addr 167772161 = "10.0.0.1" := by
  refine ⟨?_, ?_, ?_, by decide⟩
  · intro o snap hup hr
    simp [func_getvar, hup, hr]
  · intro o snap a hup hr
    simp [func_getvar, hup, hr]
  · intro o snap hup hr
    have h0 : ipaddr_print_addr 0 = "0.0.0.0" := by decide
    simp [func_getvar, hup, hr, h0]

theorem gateway_none_or_dotted_quad_witness :
    (LeaseSnapshot.mk 0 0 none [] []).router = none ∧
    func_getvar (DhcpInstance.mk true) (LeaseSnapshot.mk 0 0 none [] []) ("gateway") =
      some (some (.str ("none")), [.qRouter], DhcpInstance.mk true) ∧
    (LeaseSnapshot.mk 0 0 (some 167772161) [] []).router = some 167772161 ∧
    func_getvar (DhcpInstance.mk true) (LeaseSnapshot.mk 0 0 (some 167772161) [] [])
        ("gateway") =
      some (some (.str (ipaddr_print_addr 167772161)), [.qRouter], DhcpInstance.mk true) :=
  ⟨rfl, gateway_none_or_dotted_quad.1 (DhcpInstance.mk true)
      (LeaseSnapshot.mk 0 0 none [] []) rfl rfl,
    rfl, gateway_none_or_dotted_quad.2.1 (DhcpInstance.mk true)
      (LeaseSnapshot.mk 0 0 (some 167772161) [] []) 167772161 rfl rfl⟩

set_option maxRecDepth 4096 in
/-- C9: the `server_mac` query formats the six snapshot bytes as two-digit
uppercase hexadecimal pairs separated by colons, `mac[0]` (the most
significant byte of the printed order) first: bytes
[0xAB, 0x0C, 0xEF, 0x01, 0x02, 0x03] yield "AB:0C:EF:01:02:03"; every
byte below 256 formats as exactly two characters from the uppercase
hexadecimal alphabet, single-digit values zero-padded. -/
theorem server_mac_uppercase_hex_format :
    (∀ (o : DhcpInstance) (snap : LeaseSnapshot), o.up = true →
      snap.serverMAC = [171, 12, 239, 1, 2, 3] →
      func_getvar o snap ("server_mac") =
        some (some (.str ("AB:0C:EF:01:02:03")), [.qServerMAC], o)) ∧
    (∀ b0 b1 b2 b3 b4 b5 : Nat,
      formatServerMAC [b0, b1, b2, b3, b4, b5] =
        byteHex b0 ++ ":" ++ byteHex b1 ++ ":" ++ byteHex b2 ++ ":" ++ byteHex b3 ++ ":" ++
          byteHex b4 ++ ":" ++ byteHex b5) ∧
    (∀ b : Nat, b < 256 → (byteHex b).length = 2 ∧
      ∀ c ∈ (byteHex b).toList, c ∈ ("0123456789ABCDEF").toList) ∧
    byteHex 1 = "01" := by
  refine ⟨?_, ?_, by decide, by decide⟩
  · intro o snap hup hmac
    have hfmt : formatServerMAC [171, 12, 239, 1, 2, 3] = "AB:0C:EF:01:02:03" := by decide
    simp [func_getvar, hup, hmac, hfmt]
  · intro b0 b1 b2 b3 b4 b5
    rfl

theorem server_mac_uppercase_hex_format_witness :
    (LeaseSnapshot.mk 0 0 none [] [171, 12, 239, 1, 2, 3]).serverMAC =
      [171, 12, 239, 1, 2, 3] ∧
    func_getvar (DhcpInstance.mk true) (LeaseSnapshot.mk 0 0 none [] [171, 12, 239, 1, 2, 3])
        ("server_mac") =
      some (some (.str ("AB:0C:EF:01:02:03")), [.qServerMAC], DhcpInstance.mk true) ∧
    171 < 256 ∧ (byteHex 171).length = 2 :=
  ⟨rfl, server_mac_uppercase_hex_format.1 (DhcpInstance.mk true)
      (LeaseSnapshot.mk 0 0 none [] [171, 12, 239, 1, 2, 3]) rfl rfl,
    by decide, (server_mac_uppercase_hex_format.2.2.1 171 (by decide)).1⟩

/-- C10: for an Up instance, a variable query for any name other than the
six recognized names returns "no such variable" (no value produced) with
an empty event trace — no error logged, no Lease Engine query issued —
and the instance state is returned unchanged. -/
theorem unknown_variable_returns_no_var :
    ∀ (o : DhcpInstance) (snap : LeaseSnapshot) (name : String), o.up = true →
      name ≠ "addr" → name ≠ "prefix" → name ≠ "cidr_addr" → name ≠ "gateway" →
      name ≠ "dns_servers" → name ≠ "server_mac" →
      func_getvar o snap name = some (none, [], o) := by
  intro o snap name hup h1 h2 h3 h4 h5 h6
  simp [func_getvar, hup, h1, h2, h3, h4, h5, h6]

theorem unknown_variable_returns_no_var_witness :
    (DhcpInstance.mk true).up = true ∧
    ("serverid" : String) ≠ "addr" ∧
    func_getvar (DhcpInstance.mk true) (LeaseSnapshot.mk 0 0 none [] []) ("serverid") =
      some (none, [], DhcpInstance.mk true) :=
  ⟨rfl, by decide,
    unknown_variable_returns_no_var (DhcpInstance.mk true) (LeaseSnapshot.mk 0 0 none [] [])
      ("serverid") rfl (by decide) (by decide) (by decide) (by decide) (by decide) (by decide)⟩

end NetIpv4Dhcp
